import Mathlib

/-!
Verification of the force-field parameter preparation subsystem of the
daedalus repository (src/dynamics/prep.rs and src/add_hydrogens.rs),
as a shallow embedding in Lean 4.

Numeric model: the Rust `f32`/`f64` values are embedded as exact rationals
(`ℚ`); the floating-point `magnitude()` of a 3-vector is abstracted as an
explicit function argument `mag : Vec3 → ℚ`, so structural dataflow facts
about it are provable without a floating-point model.

The external `bio_files` keyed maps (`HashMap`) are embedded as lookup
functions `key → Option value`; `extend` (insert-all, overwriting on key
collision) becomes a right-biased merge of the lookup functions.  The
external `ForceFieldParamsKeyed::get_dihedral` helper is embedded as the
lookup in the corresponding keyed map (proper or improper, per its flag);
the claims only constrain its result, never its internals.

Rust `panic!`/`unwrap` on `None` is a distinct outcome from returning
`Err(ParamError)`; the embedding uses `Except BuildErr` with
`BuildErr.paramError` for `Err` returns and `BuildErr.panic` for panics.
-/

namespace Daedalus

/-- Mass parameters, from `bio_files::amber_params::MassParams`. -/
structure MassParams where
  atom_type : String
  mass : ℚ
  deriving DecidableEq, Repr

/-- Lennard-Jones parameters, from `bio_files::amber_params::VdwParams`. -/
structure VdwParams where
  atom_type : String
  sigma : ℚ
  eps : ℚ
  deriving DecidableEq, Repr

/-- Bond stretching parameters, from `bio_files::amber_params::BondStretchingParams`. -/
structure BondStretchingParams where
  atom_types : String × String
  k_b : ℚ
  r_0 : ℚ
  deriving DecidableEq, Repr

/-- Valence angle parameters, from `bio_files::amber_params::AngleBendingParams`. -/
structure AngleBendingParams where
  atom_types : String × String × String
  k : ℚ
  theta_0 : ℚ
  deriving DecidableEq, Repr

/-- Dihedral (torsion) parameters: the fields of the `bio_files` dihedral
data that prep.rs reads and writes (`barrier_height`, `divider`). -/
structure DihedralParams where
  atom_types : String × String × String × String
  barrier_height : ℚ
  divider : ℕ
  deriving DecidableEq, Repr

/-- The keyed parameter store, from `bio_files::amber_params::ForceFieldParamsKeyed`.
Each `HashMap` is embedded as its lookup function. -/
structure ForceFieldParamsKeyed where
  mass : String → Option MassParams
  van_der_waals : String → Option VdwParams
  bond : String × String → Option BondStretchingParams
  angle : String × String × String → Option AngleBendingParams
  dihedral : String × String × String × String → Option DihedralParams
  dihedral_improper : String × String × String × String → Option DihedralParams

/-- `HashMap::extend`: every entry of `lig` is inserted into `base`,
overwriting on key collision; embedded on lookup functions. -/
def extendMap {α β : Type} (base lig : α → Option β) : α → Option β :=
  fun k => match lig k with
    | some v => some v
    | none => base k

/-- `merge_params` from prep.rs: start from a deep copy of the generic
parameters; when a ligand-specific set is given, extend every keyed map
with its entries. -/
def merge_params (generic : ForceFieldParamsKeyed)
    (lig_specific : Option ForceFieldParamsKeyed) : ForceFieldParamsKeyed :=
  match lig_specific with
  | none => generic
  | some lig =>
    { mass := extendMap generic.mass lig.mass
      van_der_waals := extendMap generic.van_der_waals lig.van_der_waals
      bond := extendMap generic.bond lig.bond
      angle := extendMap generic.angle lig.angle
      dihedral := extendMap generic.dihedral lig.dihedral
      dihedral_improper := extendMap generic.dihedral_improper lig.dihedral_improper }

/-- `ForceFieldParamsKeyed::get_dihedral` (external `bio_files` helper),
embedded as the lookup in the proper or improper keyed map per its flag. -/
def ForceFieldParamsKeyed.get_dihedral (p : ForceFieldParamsKeyed)
    (k : String × String × String × String) (proper : Bool) : Option DihedralParams :=
  if proper then p.dihedral k else p.dihedral_improper k

/-- Chemical elements (from the external `na_seq` crate); only the variants
prep.rs branches on are distinguished. -/
inductive Element where
  | Carbon | Nitrogen | Oxygen | Hydrogen | Sulfur | Phosphorus | Other
  deriving DecidableEq, Repr

/-- `Element::atomic_weight` (periodic-table standard atomic weights, as in
`na_seq`). -/
def Element.atomic_weight : Element → ℚ
  | .Carbon => 12.011
  | .Nitrogen => 14.007
  | .Oxygen => 15.999
  | .Hydrogen => 1.008
  | .Sulfur => 32.06
  | .Phosphorus => 30.974
  | .Other => 0

/-- A 3-vector of coordinates (`lin_alg::f64::Vec3`), with exact components. -/
structure Vec3 where
  x : ℚ
  y : ℚ
  z : ℚ
  deriving DecidableEq, Repr

/-- Componentwise vector subtraction, as used for `posit_0 - posit_1`. -/
def Vec3.sub (a b : Vec3) : Vec3 := ⟨a.x - b.x, a.y - b.y, a.z - b.z⟩

/-- The fields of `molecule::Atom` that the parameter builder reads. -/
structure Atom where
  element : Element
  force_field_type : Option String
  posit : Vec3
  deriving DecidableEq, Repr

/-- The fields of `molecule::Bond` that the parameter builder reads. -/
structure Bond where
  atom_0 : ℕ
  atom_1 : ℕ
  deriving DecidableEq, Repr

/-- Outcome of a failed build: an `Err(ParamError)` return, or a Rust panic
(out-of-bounds index / `Option::unwrap` on `None`). -/
inductive BuildErr where
  | paramError (msg : String)
  | panic (msg : String)
  deriving DecidableEq, Repr

/-- Rust `str::starts_with` on a string pattern, defined by structural
recursion on the character lists so it evaluates in the kernel. -/
def strStartsWith (s pre : String) : Bool := pre.data.isPrefixOf s.data

/-- The atom-loop fallback for an atom with no force-field type
(prep.rs, `ForceFieldParamsIndexed::new`, atom loop head): fall back to a
generic element type for C/N/O/H, otherwise fail. -/
def resolveFfType (a : Atom) : Except BuildErr String :=
  match a.force_field_type with
  | some t => .ok t
  | none =>
    match a.element with
    | .Carbon => .ok "C"
    | .Nitrogen => .ok "N"
    | .Oxygen => .ok "O"
    | .Hydrogen => .ok "H"
    | _ => .error (.paramError "MD failure: Atom missing FF type")

/-- Mass resolution for one atom (prep.rs `ForceFieldParamsIndexed::new`,
`// Mass` block): exact lookup; else a C/N/O prefix fallback to the
element's generic mass entry whose absence is a hard error; else the
element's periodic-table atomic weight. -/
def massStep (params : ForceFieldParamsKeyed) (a : Atom) (ff_type : String) :
    Except BuildErr MassParams :=
  match params.mass ff_type with
  | some m => .ok m
  | none =>
    if strStartsWith ff_type "C" then
      match params.mass "C" with
      | some m => .ok m
      | none => .error (.paramError "MD failure: Missing mass params")
    else if strStartsWith ff_type "N" then
      match params.mass "N" with
      | some m => .ok m
      | none => .error (.paramError "MD failure: Missing mass params")
    else if strStartsWith ff_type "O" then
      match params.mass "O" with
      | some m => .ok m
      | none => .error (.paramError "MD failure: Missing mass params")
    else
      .ok { atom_type := "", mass := a.element.atomic_weight }

/-- The target of the van-der-Waals fallback chain (prep.rs
`ForceFieldParamsIndexed::new`, Lennard-Jones block, `else` branches in
order): the fixed alias table, then the N/O prefix fallbacks;
`none` selects the zero-interaction placeholder. -/
def vdwFallbackTarget (t : String) : Option String :=
  if t = "2C" ∨ t = "3C" ∨ t = "C8" then some "CT"
  else if t = "CO" then some "C"
  else if t = "OXT" then some "O2"
  else if strStartsWith t "N" then some "N"
  else if strStartsWith t "O" then some "O"
  else none

/-- `params.van_der_waals.get(target).unwrap().clone()`: a missing canonical
entry is a Rust panic, not a `ParamError`. -/
def unwrapVdw (params : ForceFieldParamsKeyed) (target : String) :
    Except BuildErr VdwParams :=
  match params.van_der_waals target with
  | some v => .ok v
  | none => .error (.panic "called Option unwrap on a None value")

/-- The zero-interaction placeholder stored when every van-der-Waals
fallback tier fails. -/
def vdwZeroPlaceholder : VdwParams := { atom_type := "", sigma := 0, eps := 0 }

/-- Van-der-Waals resolution for one atom (prep.rs
`ForceFieldParamsIndexed::new`, Lennard-Jones block): exact lookup, else
the alias/prefix fallback chain (unwrapping the canonical entry), else the
zero-interaction placeholder with a diagnostic. -/
def vdwStep (params : ForceFieldParamsKeyed) (ff_type : String) :
    Except BuildErr VdwParams :=
  match params.van_der_waals ff_type with
  | some v => .ok v
  | none =>
    match vdwFallbackTarget ff_type with
    | some target => unwrapVdw params target
    | none => .ok vdwZeroPlaceholder

/-- The per-atom loop of `ForceFieldParamsIndexed::new`: resolve the
force-field type, then mass, then van der Waals, accumulating the
index-keyed entries in input order. -/
def atomsStep (params : ForceFieldParamsKeyed) :
    List Atom → ℕ → Except BuildErr (List (ℕ × MassParams) × List (ℕ × VdwParams))
  | [], _ => .ok ([], [])
  | a :: rest, i => do
    let t ← resolveFfType a
    let m ← massStep params a t
    let v ← vdwStep params t
    let (ms, vs) ← atomsStep params rest (i + 1)
    .ok ((i, m) :: ms, (i, v) :: vs)

/-- `ff_type_from_idx` from prep.rs: index the atom slice (a Rust panic when
out of bounds), then require its force-field type. -/
def ff_type_from_idx (atoms : List Atom) (idx : ℕ) : Except BuildErr String :=
  match atoms[idx]? with
  | none => .error (.panic "index out of bounds")
  | some a =>
    match a.force_field_type with
    | some t => .ok t
    | none => .error (.paramError "MD failure: Atom missing FF type on descriptor")

/-- `&atoms[idx]`: indexing the atom slice, a Rust panic when out of bounds. -/
def atomFromIdx (atoms : List Atom) (idx : ℕ) : Except BuildErr Atom :=
  match atoms[idx]? with
  | none => .error (.panic "index out of bounds")
  | some a => .ok a

/-- The synthesized default bond-stretch entry (prep.rs, bond loop, miss
branch): moderate force constant 300, equilibrium length the current
geometric separation of the two atoms. -/
def bondDefault (mag : Vec3 → ℚ) (a0 a1 : Atom) : BondStretchingParams :=
  { atom_types := ("", ""), k_b := 300, r_0 := mag (a0.posit.sub a1.posit) }

/-- One iteration of the bond loop of `ForceFieldParamsIndexed::new`: look
the stretch parameters up under both type orderings; on total miss store
the synthesized default under the ascending index pair. -/
def bondStep (mag : Vec3 → ℚ) (params : ForceFieldParamsKeyed) (atoms : List Atom)
    (b : Bond) : Except BuildErr ((ℕ × ℕ) × BondStretchingParams) := do
  let type_0 ← ff_type_from_idx atoms b.atom_0
  let type_1 ← ff_type_from_idx atoms b.atom_1
  let key := (min b.atom_0 b.atom_1, max b.atom_0 b.atom_1)
  match params.bond (type_0, type_1) with
  | some d => .ok (key, d)
  | none =>
    match params.bond (type_1, type_0) with
    | some d => .ok (key, d)
    | none => do
      let a0 ← atomFromIdx atoms b.atom_0
      let a1 ← atomFromIdx atoms b.atom_1
      .ok (key, bondDefault mag a0 a1)

/-- The bond loop, accumulating entries in input order. -/
def bondsStep (mag : Vec3 → ℚ) (params : ForceFieldParamsKeyed) (atoms : List Atom) :
    List Bond → Except BuildErr (List ((ℕ × ℕ) × BondStretchingParams))
  | [] => .ok []
  | b :: rest => do
    let e ← bondStep mag params atoms b
    let es ← bondsStep mag params atoms rest
    .ok (e :: es)

/-- `itertools::tuple_combinations` on a neighbour list: every pair with the
first component strictly earlier in the list. -/
def tupleCombos : List ℕ → List (ℕ × ℕ)
  | [] => []
  | x :: xs => xs.map (fun y => (x, y)) ++ tupleCombos xs

/-- Neighbour list of atom `i` (`adjacency_list[i]`); builder loops only
index in range, so the default is never reached from them. -/
def adjGet (adj : List (List ℕ)) (i : ℕ) : List ℕ := (adj.get? i).getD []

/-- The enumeration order of valence-angle triples (neighbour A, centre,
neighbour B) produced by the angle loop of `ForceFieldParamsIndexed::new`. -/
def angleTriples (adj : List (List ℕ)) : List (ℕ × ℕ × ℕ) :=
  (List.range adj.length).flatMap fun ctr =>
    (tupleCombos (adjGet adj ctr)).map fun p => (p.1, ctr, p.2)

/-- The synthesized default angle-bend entry (prep.rs, angle loop, miss
branch; values from parm19.dat HC-CT-HC). -/
def angleDefault : AngleBendingParams :=
  { atom_types := ("", "", ""), k := 35, theta_0 := 1.91113 }

/-- One iteration of the angle loop: look up by the ordered type triple,
then its reverse, else the synthesized default. -/
def angleStep (params : ForceFieldParamsKeyed) (atoms : List Atom)
    (t : ℕ × ℕ × ℕ) : Except BuildErr ((ℕ × ℕ × ℕ) × AngleBendingParams) := do
  let type_n0 ← ff_type_from_idx atoms t.1
  let type_ctr ← ff_type_from_idx atoms t.2.1
  let type_n1 ← ff_type_from_idx atoms t.2.2
  let data :=
    match params.angle (type_n0, type_ctr, type_n1) with
    | some p => p
    | none =>
      match params.angle (type_n1, type_ctr, type_n0) with
      | some p => p
      | none => angleDefault
  .ok ((t.1, t.2.1, t.2.2), data)

/-- The angle loop, accumulating entries in enumeration order. -/
def anglesStep (params : ForceFieldParamsKeyed) (atoms : List Atom) :
    List (ℕ × ℕ × ℕ) → Except BuildErr (List ((ℕ × ℕ × ℕ) × AngleBendingParams))
  | [] => .ok []
  | t :: rest => do
    let e ← angleStep params atoms t
    let es ← anglesStep params atoms rest
    .ok (e :: es)

/-- Atom-index quadruples keying torsion terms. -/
abbrev Key4 := ℕ × ℕ × ℕ × ℕ

/-- The raw (pre-deduplication) proper-torsion enumeration of
`ForceFieldParamsIndexed::new`: for each bond `i1-i2` handled once
(`i1 < i2`), every `i0` neighbour of `i1` other than `i2` and `i3`
neighbour of `i2` other than `i1` with `i0 ≠ i3`, canonicalised so the
inner pair is ascending. -/
def properKeysRaw (adj : List (List ℕ)) : List Key4 :=
  (List.range adj.length).flatMap fun i1 =>
    (adjGet adj i1).flatMap fun i2 =>
      if i1 ≥ i2 then []
      else
        ((adjGet adj i1).filter (fun x => x ≠ i2)).flatMap fun i0 =>
          ((adjGet adj i2).filter (fun x => x ≠ i1)).flatMap fun i3 =>
            if i0 = i3 then []
            else [if i1 < i2 then (i0, i1, i2, i3) else (i3, i2, i1, i0)]

/-- The effect of the shared `seen: HashSet` guard: keep the first
occurrence of each key, given the keys already seen. -/
def seenFilter : List Key4 → List Key4 → List Key4
  | _, [] => []
  | seen, k :: ks => if k ∈ seen then seenFilter seen ks else k :: seenFilter (k :: seen) ks

/-- The deduplicated proper-torsion quadruples, in insertion order. -/
def properKeys (adj : List (List ℕ)) : List Key4 := seenFilter [] (properKeysRaw adj)

/-- Ordered triples of a neighbour list at strictly increasing positions,
mirroring the three nested index loops of the improper enumeration. -/
def tripleCombos : List ℕ → List (ℕ × ℕ × ℕ)
  | [] => []
  | x :: xs => (tupleCombos xs).map (fun p => (x, p.1, p.2)) ++ tripleCombos xs

/-- The raw improper-torsion enumeration: each hub with its unordered
neighbour triples in fixed relative order, hub in third position. -/
def improperKeysRaw (adj : List (List ℕ)) : List Key4 :=
  (List.range adj.length).flatMap fun ctr =>
    (tripleCombos (adjGet adj ctr)).map fun t => (t.1, t.2.1, ctr, t.2.2)

/-- The improper quadruples that survive the `seen` set already populated
by the proper enumeration. -/
def improperKeys (adj : List (List ℕ)) : List Key4 :=
  seenFilter (properKeys adj) (improperKeysRaw adj)

/-- The four force-field types of a torsion quadruple. -/
def dihedralTypes (atoms : List Atom) (k : Key4) :
    Except BuildErr (String × String × String × String) := do
  let t0 ← ff_type_from_idx atoms k.1
  let t1 ← ff_type_from_idx atoms k.2.1
  let t2 ← ff_type_from_idx atoms k.2.2.1
  let t3 ← ff_type_from_idx atoms k.2.2.2
  .ok (t0, t1, t2, t3)

/-- Per-quadruple torsion resolution: look up via `get_dihedral`; on a hit
divide the barrier height by the divider once at indexing time and reset
the divider to 1; a miss is a hard `ParamError`. -/
def resolveDihedral (params : ForceFieldParamsKeyed) (atoms : List Atom)
    (k : Key4) (proper : Bool) : Except BuildErr DihedralParams := do
  let ts ← dihedralTypes atoms k
  match params.get_dihedral ts proper with
  | some dihe =>
    .ok { dihe with barrier_height := dihe.barrier_height / (dihe.divider : ℚ),
                    divider := 1 }
  | none => .error (.paramError "MD failure: Missing dihedral params")

/-- The torsion loop (proper or improper), accumulating entries in
enumeration order. -/
def dihedralsStep (params : ForceFieldParamsKeyed) (atoms : List Atom)
    (proper : Bool) : List Key4 → Except BuildErr (List (Key4 × DihedralParams))
  | [] => .ok []
  | k :: ks => do
    let d ← resolveDihedral params atoms k proper
    let ds ← dihedralsStep params atoms proper ks
    .ok ((k, d) :: ds)

/-- The indexed parameter set (`ForceFieldParamsIndexed`).  Each `HashMap`
is embedded as its association list in insertion order; the enumerations
insert each key at most once, so overwrite order is immaterial. -/
structure ForceFieldParamsIndexed where
  mass : List (ℕ × MassParams)
  van_der_waals : List (ℕ × VdwParams)
  bond_stretching : List ((ℕ × ℕ) × BondStretchingParams)
  angle : List ((ℕ × ℕ × ℕ) × AngleBendingParams)
  dihedral : List (Key4 × DihedralParams)
  improper : List (Key4 × DihedralParams)
  deriving DecidableEq, Repr

/-- `ForceFieldParamsIndexed::new` from prep.rs: merge the parameter sets,
resolve per-atom mass and van der Waals, then bonds, angles, proper and
improper torsions, in source order. -/
def ForceFieldParamsIndexed.new (mag : Vec3 → ℚ)
    (params_general : ForceFieldParamsKeyed)
    (params_specific : Option ForceFieldParamsKeyed) (atoms : List Atom)
    (bonds : List Bond) (adjacency_list : List (List ℕ)) :
    Except BuildErr ForceFieldParamsIndexed := do
  let params := merge_params params_general params_specific
  let (massMap, vdwMap) ← atomsStep params atoms 0
  let bondMap ← bondsStep mag params atoms bonds
  let angleMap ← anglesStep params atoms (angleTriples adjacency_list)
  let diheMap ← dihedralsStep params atoms true (properKeys adjacency_list)
  let improperMap ← dihedralsStep params atoms false (improperKeys adjacency_list)
  .ok { mass := massMap, van_der_waals := vdwMap, bond_stretching := bondMap,
        angle := angleMap, dihedral := diheMap, improper := improperMap }

/-- The `push` helper of `setup_nonbonded_exclusion_scale_flags`: store a
pair in canonical (low, high) order. -/
def canonPair (i j : ℕ) : ℕ × ℕ := if i < j then (i, j) else (j, i)

/-- `MdState::setup_nonbonded_exclusion_scale_flags` from prep.rs, as the
pair of sets it leaves in the state: 1-2 pairs from the indexed bonds and
1-3 pairs from the indexed angles join the exclusion set; 1-4 end pairs of
the indexed proper torsions join the scaled set (impropers are not read);
finally every scaled pair is removed from the exclusion set. -/
def setup_nonbonded_exclusion_scale_flags (exclusions0 scaled0 : Finset (ℕ × ℕ))
    (ffp : ForceFieldParamsIndexed) : Finset (ℕ × ℕ) × Finset (ℕ × ℕ) :=
  let exclusions := exclusions0
    ∪ (ffp.bond_stretching.map fun p => canonPair p.1.1 p.1.2).toFinset
    ∪ (ffp.angle.map fun p => canonPair p.1.1 p.1.2.2).toFinset
  let scaled := scaled0 ∪ (ffp.dihedral.map fun p => canonPair p.1.1 p.1.2.2.2).toFinset
  (exclusions \ scaled, scaled)

/-! ## Shared helper lemmas -/

/-- Reduction of the `Except` bind on a success, for unfolding the builder. -/
@[simp] theorem except_bind_ok {ε α β : Type} (a : α) (f : α → Except ε β) :
    (Except.ok a >>= f) = f a := rfl

/-- Reduction of the `Except` bind on an error. -/
@[simp] theorem except_bind_error {ε α β : Type} (e : ε) (f : α → Except ε β) :
    (Except.error e >>= f) = (Except.error e : Except ε β) := rfl

/-- `extendMap` is right-biased: specific entries win, generic-only keys are
kept, and a key absent from the result is absent from both inputs. -/
theorem extendMap_spec {α β : Type} (base lig : α → Option β) :
    (∀ k v, lig k = some v → extendMap base lig k = some v) ∧
    (∀ k, lig k = none → extendMap base lig k = base k) ∧
    (∀ k, extendMap base lig k = none → base k = none ∧ lig k = none) := by
  refine ⟨fun k v h => by simp only [extendMap, h], fun k h => by simp only [extendMap, h],
    fun k h => ?_⟩
  unfold extendMap at h
  cases hl : lig k with
  | some v => rw [hl] at h; exact absurd h (by simp)
  | none => rw [hl] at h; exact ⟨h, rfl⟩

/-! ## C7: merge precedence -/

/-- C7: `merge(generic, specific)` binds every key present in both inputs to
the specific entry's value, keeps every generic-only key unchanged, and
loses no key of either input — for each keyed mapping of the store. -/
theorem merge_params_precedence (g s : ForceFieldParamsKeyed) :
    ((∀ k v, s.mass k = some v → (merge_params g (some s)).mass k = some v) ∧
     (∀ k, s.mass k = none → (merge_params g (some s)).mass k = g.mass k) ∧
     (∀ k, (merge_params g (some s)).mass k = none → g.mass k = none ∧ s.mass k = none)) ∧
    ((∀ k v, s.van_der_waals k = some v → (merge_params g (some s)).van_der_waals k = some v) ∧
     (∀ k, s.van_der_waals k = none →
        (merge_params g (some s)).van_der_waals k = g.van_der_waals k) ∧
     (∀ k, (merge_params g (some s)).van_der_waals k = none →
        g.van_der_waals k = none ∧ s.van_der_waals k = none)) ∧
    ((∀ k v, s.bond k = some v → (merge_params g (some s)).bond k = some v) ∧
     (∀ k, s.bond k = none → (merge_params g (some s)).bond k = g.bond k) ∧
     (∀ k, (merge_params g (some s)).bond k = none → g.bond k = none ∧ s.bond k = none)) ∧
    ((∀ k v, s.angle k = some v → (merge_params g (some s)).angle k = some v) ∧
     (∀ k, s.angle k = none → (merge_params g (some s)).angle k = g.angle k) ∧
     (∀ k, (merge_params g (some s)).angle k = none → g.angle k = none ∧ s.angle k = none)) ∧
    ((∀ k v, s.dihedral k = some v → (merge_params g (some s)).dihedral k = some v) ∧
     (∀ k, s.dihedral k = none → (merge_params g (some s)).dihedral k = g.dihedral k) ∧
     (∀ k, (merge_params g (some s)).dihedral k = none →
        g.dihedral k = none ∧ s.dihedral k = none)) ∧
    ((∀ k v, s.dihedral_improper k = some v →
        (merge_params g (some s)).dihedral_improper k = some v) ∧
     (∀ k, s.dihedral_improper k = none →
        (merge_params g (some s)).dihedral_improper k = g.dihedral_improper k) ∧
     (∀ k, (merge_params g (some s)).dihedral_improper k = none →
        g.dihedral_improper k = none ∧ s.dihedral_improper k = none)) :=
  ⟨extendMap_spec g.mass s.mass, extendMap_spec g.van_der_waals s.van_der_waals,
   extendMap_spec g.bond s.bond, extendMap_spec g.angle s.angle,
   extendMap_spec g.dihedral s.dihedral,
   extendMap_spec g.dihedral_improper s.dihedral_improper⟩

/-- The empty keyed store, for building small concrete stores. -/
def emptyStore : ForceFieldParamsKeyed :=
  { mass := fun _ => none, van_der_waals := fun _ => none, bond := fun _ => none,
    angle := fun _ => none, dihedral := fun _ => none, dihedral_improper := fun _ => none }

/-- A generic store with mass entries for CT and N. -/
def mergeGenericSample : ForceFieldParamsKeyed :=
  { emptyStore with
      mass := fun k =>
        if k = "CT" then some ⟨"CT", 12⟩ else if k = "N" then some ⟨"N", 14⟩ else none }

/-- A specific store overriding the CT mass entry. -/
def mergeSpecificSample : ForceFieldParamsKeyed :=
  { emptyStore with mass := fun k => if k = "CT" then some ⟨"CT", 99⟩ else none }

/-- Witness for C7: on the sample stores, the colliding CT key takes the
specific value and the generic-only N key is preserved. -/
theorem merge_params_precedence_witness :
    (merge_params mergeGenericSample (some mergeSpecificSample)).mass "CT" = some ⟨"CT", 99⟩ ∧
    (merge_params mergeGenericSample (some mergeSpecificSample)).mass "N" =
      mergeGenericSample.mass "N" :=
  ⟨(merge_params_precedence mergeGenericSample mergeSpecificSample).1.1 "CT" ⟨"CT", 99⟩ rfl,
   (merge_params_precedence mergeGenericSample mergeSpecificSample).1.2.1 "N" rfl⟩

/-! ## C4: exclusion / scaled set disjointness -/

/-- C4: after every run of the exclusion/scaling builder the excluded and
scaled sets are disjoint; the canonical end pair of every indexed proper
torsion is in the scaled set and not in the excluded set (even when a 1-2
or 1-3 path also connects it); and every scaled pair not already present
beforehand comes from a proper torsion — impropers contribute none. -/
theorem nonbonded_sets_disjoint (exc0 scl0 : Finset (ℕ × ℕ))
    (ffp : ForceFieldParamsIndexed) :
    (setup_nonbonded_exclusion_scale_flags exc0 scl0 ffp).1 ∩
      (setup_nonbonded_exclusion_scale_flags exc0 scl0 ffp).2 = ∅ ∧
    (∀ kd ∈ ffp.dihedral,
      canonPair kd.1.1 kd.1.2.2.2 ∈ (setup_nonbonded_exclusion_scale_flags exc0 scl0 ffp).2 ∧
      canonPair kd.1.1 kd.1.2.2.2 ∉ (setup_nonbonded_exclusion_scale_flags exc0 scl0 ffp).1) ∧
    (∀ p ∈ (setup_nonbonded_exclusion_scale_flags exc0 scl0 ffp).2,
      p ∈ scl0 ∨ ∃ kd ∈ ffp.dihedral, p = canonPair kd.1.1 kd.1.2.2.2) := by
  unfold setup_nonbonded_exclusion_scale_flags
  refine ⟨Finset.sdiff_inter_self _ _, fun kd hkd => ?_, fun p hp => ?_⟩
  · have hmem : canonPair kd.1.1 kd.1.2.2.2 ∈
        scl0 ∪ (ffp.dihedral.map fun p => canonPair p.1.1 p.1.2.2.2).toFinset := by
      refine Finset.mem_union_right _ ?_
      rw [List.mem_toFinset]
      exact List.mem_map.mpr ⟨kd, hkd, rfl⟩
    exact ⟨hmem, fun hc => (Finset.mem_sdiff.mp hc).2 hmem⟩
  · rcases Finset.mem_union.mp hp with h0 | h1
    · exact Or.inl h0
    · rcases List.mem_map.mp (List.mem_toFinset.mp h1) with ⟨kd, hkd, hpe⟩
      exact Or.inr ⟨kd, hkd, hpe.symm⟩

/-- A small indexed set over a 4-ring: the 1-4 end pair (0, 3) of the proper
torsion is also connected by a bond and an angle path. -/
def ffpRingSample : ForceFieldParamsIndexed :=
  { mass := [], van_der_waals := [],
    bond_stretching := [((0, 1), ⟨("", ""), 300, 1⟩), ((0, 3), ⟨("", ""), 300, 1⟩)],
    angle := [((0, 2, 3), ⟨("", "", ""), 35, 1.91113⟩)],
    dihedral := [((0, 1, 2, 3), ⟨("", "", "", ""), 1, 1⟩)],
    improper := [((1, 2, 0, 3), ⟨("", "", "", ""), 1, 1⟩)] }

/-- Witness for C4: on the ring sample the pair (0, 3) is scaled and not
excluded, although a 1-2 and a 1-3 path also connect it. -/
theorem nonbonded_sets_disjoint_witness :
    canonPair 0 3 ∈ (setup_nonbonded_exclusion_scale_flags ∅ ∅ ffpRingSample).2 ∧
    canonPair 0 3 ∉ (setup_nonbonded_exclusion_scale_flags ∅ ∅ ffpRingSample).1 :=
  (nonbonded_sets_disjoint ∅ ∅ ffpRingSample).2.1
    ((0, 1, 2, 3), ⟨("", "", "", ""), 1, 1⟩) (by simp [ffpRingSample])

/-! ## C6: proper-torsion enumeration on a 5-chain -/

/-- The adjacency list of a linear chain of 5 bonded atoms; the three
Booleans choose the traversal order of each internal neighbour list. -/
def chainAdj (b1 b2 b3 : Bool) : List (List ℕ) :=
  [[1], if b1 then [0, 2] else [2, 0], if b2 then [1, 3] else [3, 1],
   if b3 then [2, 4] else [4, 2], [3]]

/-- C6: on a linear chain of 5 bonded atoms the proper-torsion enumeration
yields exactly 2 canonicalised quadruples, one per internal bond, without
duplicates, for every traversal order of the neighbour lists. -/
theorem proper_enumeration_chain5 (b1 b2 b3 : Bool) :
    (properKeys (chainAdj b1 b2 b3)).length = 2 ∧
    (properKeys (chainAdj b1 b2 b3)).Nodup ∧
    (properKeys (chainAdj b1 b2 b3)).toFinset = {(0, 1, 2, 3), (1, 2, 3, 4)} := by
  cases b1 <;> cases b2 <;> cases b3 <;> exact ⟨by decide, by decide, by decide⟩

/-! ## C1: van-der-Waals fallback chain -/

/-- A store with generic C, N and O van-der-Waals entries and nothing else. -/
def vdwStoreCNO : ForceFieldParamsKeyed :=
  { emptyStore with
      van_der_waals := fun k =>
        if k = "C" then some ⟨"C", 1.908, 0.086⟩
        else if k = "N" then some ⟨"N", 1.824, 0.17⟩
        else if k = "O" then some ⟨"O", 1.6612, 0.21⟩
        else none }

/-- C1 counterexample: for the type CG — no exact entry, first character the
known element prefix C — the builder stores the zero-interaction
placeholder although the generic C entry is present, so there is no C
prefix fallback for van der Waals. -/
theorem vdw_c_prefix_counterexample :
    vdwStoreCNO.van_der_waals "CG" = none ∧
    vdwStoreCNO.van_der_waals "C" = some ⟨"C", 1.908, 0.086⟩ ∧
    vdwStep vdwStoreCNO "CG" = .ok vdwZeroPlaceholder ∧
    vdwZeroPlaceholder ≠ (⟨"C", 1.908, 0.086⟩ : VdwParams) :=
  ⟨rfl, rfl, rfl, fun h => absurd (congrArg VdwParams.atom_type h) (by decide)⟩

/-- C1 (amended): on a missed exact van-der-Waals lookup the builder first
consults the fixed alias table (2C, 3C, C8 resolve to the CT entry; CO to
C; OXT to O2); second, a prefix fallback applies to N and O only (there is
no C prefix tier); only when no alias or N/O prefix applies is the
zero-interaction placeholder stored, and that tier never fails. -/
theorem vdw_fallback_chain_amended (params : ForceFieldParamsKeyed) (t : String)
    (hmiss : params.van_der_waals t = none) :
    ((t = "2C" ∨ t = "3C" ∨ t = "C8") →
      ∀ v, params.van_der_waals "CT" = some v → vdwStep params t = .ok v) ∧
    (t = "CO" → ∀ v, params.van_der_waals "C" = some v → vdwStep params t = .ok v) ∧
    (t = "OXT" → ∀ v, params.van_der_waals "O2" = some v → vdwStep params t = .ok v) ∧
    (¬(t = "2C" ∨ t = "3C" ∨ t = "C8") → t ≠ "CO" → t ≠ "OXT" →
      strStartsWith t "N" = true →
      ∀ v, params.van_der_waals "N" = some v → vdwStep params t = .ok v) ∧
    (¬(t = "2C" ∨ t = "3C" ∨ t = "C8") → t ≠ "CO" → t ≠ "OXT" →
      strStartsWith t "N" = false → strStartsWith t "O" = true →
      ∀ v, params.van_der_waals "O" = some v → vdwStep params t = .ok v) ∧
    (¬(t = "2C" ∨ t = "3C" ∨ t = "C8") → t ≠ "CO" → t ≠ "OXT" →
      strStartsWith t "N" = false → strStartsWith t "O" = false →
      vdwStep params t = .ok vdwZeroPlaceholder) := by
  refine ⟨?_, ?_, ?_, ?_, ?_, ?_⟩
  · rintro (rfl | rfl | rfl) v hv <;>
      simp [vdwStep, hmiss, vdwFallbackTarget, unwrapVdw, hv]
  · rintro rfl v hv
    simp [vdwStep, hmiss, vdwFallbackTarget, unwrapVdw, hv]
  · rintro rfl v hv
    simp [vdwStep, hmiss, vdwFallbackTarget, unwrapVdw, hv]
  · intro halias hco hoxt hn v hv
    simp [vdwStep, hmiss, vdwFallbackTarget, halias, hco, hoxt, hn, unwrapVdw, hv]
  · intro halias hco hoxt hn ho v hv
    simp [vdwStep, hmiss, vdwFallbackTarget, halias, hco, hoxt, hn, ho, unwrapVdw, hv]
  · intro halias hco hoxt hn ho
    simp [vdwStep, hmiss, vdwFallbackTarget, halias, hco, hoxt, hn, ho]

/-- A store with the canonical CT van-der-Waals entry only. -/
def vdwStoreCT : ForceFieldParamsKeyed :=
  { emptyStore with
      van_der_waals := fun k => if k = "CT" then some ⟨"CT", 1.908, 0.1094⟩ else none }

/-- Witness for C1 (amended): the alias tier resolves 2C to the CT entry,
the prefix tier resolves NA to the N entry, and the unknown type XQ gets
the zero-interaction placeholder. -/
theorem vdw_fallback_chain_amended_witness :
    vdwStep vdwStoreCT "2C" = .ok ⟨"CT", 1.908, 0.1094⟩ ∧
    vdwStep vdwStoreCNO "NA" = .ok ⟨"N", 1.824, 0.17⟩ ∧
    vdwStep vdwStoreCT "XQ" = .ok vdwZeroPlaceholder :=
  ⟨(vdw_fallback_chain_amended vdwStoreCT "2C" rfl).1 (Or.inl rfl) _ rfl,
   (vdw_fallback_chain_amended vdwStoreCNO "NA" rfl).2.2.2.1
     (by decide) (by decide) (by decide) (by decide) _ rfl,
   (vdw_fallback_chain_amended vdwStoreCT "XQ" rfl).2.2.2.2.2
     (by decide) (by decide) (by decide) (by decide) (by decide)⟩

/-! ## C2: mass fallback chain -/

/-- A store whose only mass entry is the alias target CT. -/
def massStoreCT : ForceFieldParamsKeyed :=
  { emptyStore with mass := fun k => if k = "CT" then some ⟨"CT", 99⟩ else none }

/-- A carbon atom typed 2C. -/
def atomC2C : Atom := { element := .Carbon, force_field_type := some "2C", posit := ⟨0, 0, 0⟩ }

/-- C2 counterexample: for the type 2C with no exact mass entry, the builder
does not consult the alias table (which would resolve 2C to the present CT
entry, mass 99): since 2C has no C/N/O prefix it stores the element's
atomic weight instead, so the mass fallback has no alias stage. -/
theorem mass_alias_counterexample :
    massStoreCT.mass "2C" = none ∧
    massStoreCT.mass "CT" = some ⟨"CT", 99⟩ ∧
    massStep massStoreCT atomC2C "2C" = .ok ⟨"", Element.Carbon.atomic_weight⟩ ∧
    Element.Carbon.atomic_weight ≠ (99 : ℚ) := by
  refine ⟨rfl, rfl, rfl, ?_⟩
  show (12.011 : ℚ) ≠ 99
  norm_num

/-- C2 (amended): the mass fallback has no alias stage: on a missed exact
lookup, a type starting with C, N or O takes that element's generic mass
entry and its absence is a hard failure (not an atomic-weight fallback);
only a type starting with none of C, N, O stores the atom element's
periodic-table atomic weight. -/
theorem mass_fallback_chain_amended (params : ForceFieldParamsKeyed) (a : Atom)
    (t : String) (hmiss : params.mass t = none) :
    (strStartsWith t "C" = true →
      (∀ m, params.mass "C" = some m → massStep params a t = .ok m) ∧
      (params.mass "C" = none →
        massStep params a t = .error (.paramError "MD failure: Missing mass params"))) ∧
    (strStartsWith t "C" = false → strStartsWith t "N" = true →
      (∀ m, params.mass "N" = some m → massStep params a t = .ok m) ∧
      (params.mass "N" = none →
        massStep params a t = .error (.paramError "MD failure: Missing mass params"))) ∧
    (strStartsWith t "C" = false → strStartsWith t "N" = false →
      strStartsWith t "O" = true →
      (∀ m, params.mass "O" = some m → massStep params a t = .ok m) ∧
      (params.mass "O" = none →
        massStep params a t = .error (.paramError "MD failure: Missing mass params"))) ∧
    (strStartsWith t "C" = false → strStartsWith t "N" = false →
      strStartsWith t "O" = false →
      massStep params a t = .ok { atom_type := "", mass := a.element.atomic_weight }) := by
  refine ⟨fun hc => ⟨fun m hm => ?_, fun hm => ?_⟩,
          fun hc hn => ⟨fun m hm => ?_, fun hm => ?_⟩,
          fun hc hn ho => ⟨fun m hm => ?_, fun hm => ?_⟩,
          fun hc hn ho => ?_⟩ <;>
    simp [massStep, hmiss, *]

/-- A nitrogen atom with a type missing from every mass table. -/
def atomNX : Atom := { element := .Nitrogen, force_field_type := some "NX", posit := ⟨0, 0, 0⟩ }

/-- A phosphorus atom with a type outside every prefix tier. -/
def atomP : Atom := { element := .Phosphorus, force_field_type := some "p5", posit := ⟨0, 0, 0⟩ }

/-- A store with a generic N mass entry only. -/
def massStoreN : ForceFieldParamsKeyed :=
  { emptyStore with mass := fun k => if k = "N" then some ⟨"N", 14⟩ else none }

/-- Witness for C2 (amended): NX resolves to the generic N mass entry; with
an empty store NX is a hard failure while p5 stores the periodic-table
atomic weight of phosphorus. -/
theorem mass_fallback_chain_amended_witness :
    massStep massStoreN atomNX "NX" = .ok ⟨"N", 14⟩ ∧
    massStep emptyStore atomNX "NX" =
      .error (.paramError "MD failure: Missing mass params") ∧
    massStep emptyStore atomP "p5" =
      .ok { atom_type := "", mass := Element.Phosphorus.atomic_weight } :=
  ⟨((mass_fallback_chain_amended massStoreN atomNX "NX" rfl).2.1
      (by decide) (by decide)).1 _ rfl,
   ((mass_fallback_chain_amended emptyStore atomNX "NX" rfl).2.1
      (by decide) (by decide)).2 rfl,
   (mass_fallback_chain_amended emptyStore atomP "p5" rfl).2.2.2
      (by decide) (by decide) (by decide)⟩

/-! ## C9: synthesized bond-stretch default -/

/-- C9: for a bond whose type pair misses the merged store in both
orientations, the bond loop does not fail: it stores, under the
ascending-sorted atom-index pair, a synthesized entry with force constant
300 and equilibrium length the current geometric separation of the two
atoms. -/
theorem missing_bond_synthesized_default (mag : Vec3 → ℚ)
    (params : ForceFieldParamsKeyed) (atoms : List Atom) (b : Bond)
    (a0 a1 : Atom) (t0 t1 : String)
    (h0 : atoms[b.atom_0]? = some a0) (h1 : atoms[b.atom_1]? = some a1)
    (ht0 : a0.force_field_type = some t0) (ht1 : a1.force_field_type = some t1)
    (hm0 : params.bond (t0, t1) = none) (hm1 : params.bond (t1, t0) = none) :
    bondStep mag params atoms b =
      .ok ((min b.atom_0 b.atom_1, max b.atom_0 b.atom_1),
        { atom_types := ("", ""), k_b := 300, r_0 := mag (a0.posit.sub a1.posit) }) := by
  simp [bondStep, ff_type_from_idx, atomFromIdx, h0, h1, ht0, ht1, hm0, hm1, bondDefault]

/-- The coordinate-extraction stand-in for the floating-point vector norm. -/
def magX : Vec3 → ℚ := fun v => v.x

/-- Two bonded atoms with types absent from the empty store. -/
def atomCA : Atom := { element := .Carbon, force_field_type := some "ca", posit := ⟨1, 2, 3⟩ }

/-- The second atom of the sample bond. -/
def atomOS : Atom := { element := .Oxygen, force_field_type := some "os", posit := ⟨0, 0, 0⟩ }

/-- Witness for C9: on the empty store the bond 1-0 stores the synthesized
default under the sorted pair (0, 1). -/
theorem missing_bond_synthesized_default_witness :
    bondStep magX emptyStore [atomCA, atomOS] ⟨1, 0⟩ =
      .ok ((min 1 0, max 1 0),
        { atom_types := ("", ""), k_b := 300,
          r_0 := magX (atomOS.posit.sub atomCA.posit) }) :=
  missing_bond_synthesized_default magX emptyStore [atomCA, atomOS] ⟨1, 0⟩
    atomOS atomCA "os" "ca" rfl rfl rfl rfl rfl rfl

/-! ## C10: the fallback unwrap panics when the canonical entry is absent -/

/-- C10: when the van-der-Waals alias/prefix fallback fires for the first
atom and the fallback target's canonical entry is itself absent from the
merged store, the whole build ends in a Rust panic (the `unwrap` on
`None`), not in an `Err(ParamError)` return. -/
theorem vdw_fallback_unwrap_panics (mag : Vec3 → ℚ) (g : ForceFieldParamsKeyed)
    (s : Option ForceFieldParamsKeyed) (a : Atom) (rest : List Atom)
    (bonds : List Bond) (adj : List (List ℕ)) (t target : String) (m : MassParams)
    (ht : a.force_field_type = some t)
    (hmass : massStep (merge_params g s) a t = .ok m)
    (hmiss : (merge_params g s).van_der_waals t = none)
    (htarget : vdwFallbackTarget t = some target)
    (hcanon : (merge_params g s).van_der_waals target = none) :
    ForceFieldParamsIndexed.new mag g s (a :: rest) bonds adj =
      .error (.panic "called Option unwrap on a None value") := by
  have hvdw : vdwStep (merge_params g s) t =
      .error (.panic "called Option unwrap on a None value") := by
    simp [vdwStep, hmiss, htarget, unwrapVdw, hcanon]
  have hatoms : atomsStep (merge_params g s) (a :: rest) 0 =
      .error (.panic "called Option unwrap on a None value") := by
    simp [atomsStep, resolveFfType, ht, hmass, hvdw]
  simp [ForceFieldParamsIndexed.new, hatoms]

/-- A store with a mass entry for 2C but no van-der-Waals entries at all. -/
def massOnlyStore : ForceFieldParamsKeyed :=
  { emptyStore with mass := fun k => if k = "2C" then some ⟨"2C", 12⟩ else none }

/-- Witness for C10: with the CT canonical entry absent, building over a
single 2C atom panics. -/
theorem vdw_fallback_unwrap_panics_witness :
    ForceFieldParamsIndexed.new magX massOnlyStore none [atomC2C] [] [] =
      .error (.panic "called Option unwrap on a None value") :=
  vdw_fallback_unwrap_panics magX massOnlyStore none atomC2C [] [] [] "2C" "CT"
    ⟨"2C", 12⟩ rfl rfl rfl rfl rfl

/-! ## C3: a missing torsion entry fails the whole build -/

/-- A failing quadruple anywhere in the enumeration makes the torsion loop
return an error. -/
theorem dihedralsStep_error_of_mem (params : ForceFieldParamsKeyed)
    (atoms : List Atom) (proper : Bool) (l : List Key4) (k : Key4)
    (hmem : k ∈ l) (e : BuildErr)
    (hfail : resolveDihedral params atoms k proper = .error e) :
    ∃ e', dihedralsStep params atoms proper l = .error e' := by
  induction l with
  | nil => cases hmem
  | cons hd tl ih =>
    cases hrd : resolveDihedral params atoms hd proper with
    | error e0 => exact ⟨e0, by simp [dihedralsStep, hrd]⟩
    | ok d =>
      rcases List.mem_cons.mp hmem with rfl | htl
      · rw [hfail] at hrd; cases hrd
      · rcases ih htl with ⟨e', he'⟩
        exact ⟨e', by simp [dihedralsStep, hrd, he']⟩

/-- C3: if any enumerated proper or improper quadruple (with resolvable
types) has no matching entry in the merged store, the whole build returns
an error and no indexed parameter set is produced. -/
theorem missing_torsion_build_fails (mag : Vec3 → ℚ) (g : ForceFieldParamsKeyed)
    (s : Option ForceFieldParamsKeyed) (atoms : List Atom) (bonds : List Bond)
    (adj : List (List ℕ)) (k : Key4) (ts : String × String × String × String)
    (hfail : (k ∈ properKeys adj ∧ dihedralTypes atoms k = .ok ts ∧
                (merge_params g s).get_dihedral ts true = none) ∨
             (k ∈ improperKeys adj ∧ dihedralTypes atoms k = .ok ts ∧
                (merge_params g s).get_dihedral ts false = none)) :
    ∃ e, ForceFieldParamsIndexed.new mag g s atoms bonds adj = .error e := by
  have hres : ∀ proper : Bool, dihedralTypes atoms k = .ok ts →
      (merge_params g s).get_dihedral ts proper = none →
      resolveDihedral (merge_params g s) atoms k proper =
        .error (.paramError "MD failure: Missing dihedral params") := by
    intro proper h1 h2
    simp [resolveDihedral, h1, h2]
  cases h1 : atomsStep (merge_params g s) atoms 0 with
  | error e => exact ⟨e, by simp [ForceFieldParamsIndexed.new, h1]⟩
  | ok mv =>
    obtain ⟨ms, vs⟩ := mv
    cases h2 : bondsStep mag (merge_params g s) atoms bonds with
    | error e => exact ⟨e, by simp [ForceFieldParamsIndexed.new, h1, h2]⟩
    | ok bm =>
      cases h3 : anglesStep (merge_params g s) atoms (angleTriples adj) with
      | error e => exact ⟨e, by simp [ForceFieldParamsIndexed.new, h1, h2, h3]⟩
      | ok am =>
        rcases hfail with ⟨hmem, hts, hnone⟩ | ⟨hmem, hts, hnone⟩
        · rcases dihedralsStep_error_of_mem (merge_params g s) atoms true _ k hmem _
            (hres true hts hnone) with ⟨e, he⟩
          exact ⟨e, by simp [ForceFieldParamsIndexed.new, h1, h2, h3, he]⟩
        · cases h4 : dihedralsStep (merge_params g s) atoms true (properKeys adj) with
          | error e => exact ⟨e, by simp [ForceFieldParamsIndexed.new, h1, h2, h3, h4]⟩
          | ok dm =>
            rcases dihedralsStep_error_of_mem (merge_params g s) atoms false _ k hmem _
              (hres false hts hnone) with ⟨e, he⟩
            exact ⟨e, by simp [ForceFieldParamsIndexed.new, h1, h2, h3, h4, he]⟩

/-- A carbon atom with the GAFF type c3. -/
def atomC3 : Atom := { element := .Carbon, force_field_type := some "c3", posit := ⟨0, 0, 0⟩ }

/-- Four c3 atoms bonded in a chain. -/
def atoms4 : List Atom := [atomC3, atomC3, atomC3, atomC3]

/-- The adjacency list of the 4-chain. -/
def adj4 : List (List ℕ) := [[1], [0, 2], [1, 3], [2]]

/-- A store with mass and van-der-Waals entries for c3 but no torsions. -/
def storeC3NoTorsion : ForceFieldParamsKeyed :=
  { emptyStore with
      mass := fun k => if k = "c3" then some ⟨"c3", 12⟩ else none,
      van_der_waals := fun k => if k = "c3" then some ⟨"c3", 1.908, 0.1094⟩ else none }

/-- Witness for C3: with no dihedral entry for (c3, c3, c3, c3) the build
over the 4-chain fails. -/
theorem missing_torsion_build_fails_witness :
    ∃ e, ForceFieldParamsIndexed.new magX storeC3NoTorsion none atoms4 [] adj4 =
      .error e :=
  missing_torsion_build_fails magX storeC3NoTorsion none atoms4 [] adj4
    (0, 1, 2, 3) ("c3", "c3", "c3", "c3") (Or.inl ⟨by decide, rfl, rfl⟩)

/-! ## C5: torsion barrier normalization -/

/-- Every entry of a successful torsion loop comes from `resolveDihedral`. -/
theorem dihedralsStep_mem_resolve (params : ForceFieldParamsKeyed)
    (atoms : List Atom) (proper : Bool) :
    ∀ (l : List Key4) (m : List (Key4 × DihedralParams)),
      dihedralsStep params atoms proper l = .ok m →
      ∀ k d, (k, d) ∈ m → resolveDihedral params atoms k proper = .ok d := by
  intro l
  induction l with
  | nil =>
    intro m hm k d hkd
    simp [dihedralsStep] at hm
    subst hm
    cases hkd
  | cons hd tl ih =>
    intro m hm k d hkd
    cases hrd : resolveDihedral params atoms hd proper with
    | error e => simp [dihedralsStep, hrd] at hm
    | ok d0 =>
      cases hds : dihedralsStep params atoms proper tl with
      | error e => simp [dihedralsStep, hrd, hds] at hm
      | ok ds =>
        simp [dihedralsStep, hrd, hds] at hm
        subst hm
        rcases List.mem_cons.mp hkd with heq | htl
        · cases heq; exact hrd
        · exact ih ds hds k d htl

/-- Inversion of a successful per-quadruple resolution: the stored entry is
the source entry with barrier height divided by the source divider and the
divider reset to 1. -/
theorem resolveDihedral_ok_inv (params : ForceFieldParamsKeyed)
    (atoms : List Atom) (k : Key4) (proper : Bool) (d : DihedralParams)
    (h : resolveDihedral params atoms k proper = .ok d) :
    ∃ ts src, dihedralTypes atoms k = .ok ts ∧
      params.get_dihedral ts proper = some src ∧
      d.barrier_height = src.barrier_height / (src.divider : ℚ) ∧ d.divider = 1 := by
  cases hts : dihedralTypes atoms k with
  | error e => simp [resolveDihedral, hts] at h
  | ok ts =>
    cases hsrc : params.get_dihedral ts proper with
    | none => simp [resolveDihedral, hts, hsrc] at h
    | some src =>
      simp [resolveDihedral, hts, hsrc] at h
      subst h
      exact ⟨ts, src, rfl, hsrc, rfl, rfl⟩

/-- Inversion of a successful build: the torsion maps of the result are the
outputs of the proper and improper torsion loops. -/
theorem new_ok_inv (mag : Vec3 → ℚ) (g : ForceFieldParamsKeyed)
    (s : Option ForceFieldParamsKeyed) (atoms : List Atom) (bonds : List Bond)
    (adj : List (List ℕ)) (r : ForceFieldParamsIndexed)
    (hok : ForceFieldParamsIndexed.new mag g s atoms bonds adj = .ok r) :
    dihedralsStep (merge_params g s) atoms true (properKeys adj) = .ok r.dihedral ∧
    dihedralsStep (merge_params g s) atoms false (improperKeys adj) = .ok r.improper := by
  cases h1 : atomsStep (merge_params g s) atoms 0 with
  | error e => simp [ForceFieldParamsIndexed.new, h1] at hok
  | ok mv =>
    obtain ⟨ms, vs⟩ := mv
    cases h2 : bondsStep mag (merge_params g s) atoms bonds with
    | error e => simp [ForceFieldParamsIndexed.new, h1, h2] at hok
    | ok bm =>
      cases h3 : anglesStep (merge_params g s) atoms (angleTriples adj) with
      | error e => simp [ForceFieldParamsIndexed.new, h1, h2, h3] at hok
      | ok am =>
        cases h4 : dihedralsStep (merge_params g s) atoms true (properKeys adj) with
        | error e => simp [ForceFieldParamsIndexed.new, h1, h2, h3, h4] at hok
        | ok dm =>
          cases h5 : dihedralsStep (merge_params g s) atoms false (improperKeys adj) with
          | error e => simp [ForceFieldParamsIndexed.new, h1, h2, h3, h4, h5] at hok
          | ok im =>
            simp [ForceFieldParamsIndexed.new, h1, h2, h3, h4, h5] at hok
            subst hok
            exact ⟨rfl, rfl⟩

/-- C5: in any successful build, every stored proper and improper torsion
entry equals the merged store's matched entry with its barrier height
divided by the source divider and its divider reset to 1. -/
theorem torsion_barrier_normalized (mag : Vec3 → ℚ) (g : ForceFieldParamsKeyed)
    (s : Option ForceFieldParamsKeyed) (atoms : List Atom) (bonds : List Bond)
    (adj : List (List ℕ)) (r : ForceFieldParamsIndexed)
    (hok : ForceFieldParamsIndexed.new mag g s atoms bonds adj = .ok r) :
    (∀ k d, (k, d) ∈ r.dihedral → ∃ ts src,
        dihedralTypes atoms k = .ok ts ∧
        (merge_params g s).get_dihedral ts true = some src ∧
        d.barrier_height = src.barrier_height / (src.divider : ℚ) ∧ d.divider = 1) ∧
    (∀ k d, (k, d) ∈ r.improper → ∃ ts src,
        dihedralTypes atoms k = .ok ts ∧
        (merge_params g s).get_dihedral ts false = some src ∧
        d.barrier_height = src.barrier_height / (src.divider : ℚ) ∧ d.divider = 1) := by
  obtain ⟨h4, h5⟩ := new_ok_inv mag g s atoms bonds adj r hok
  exact ⟨fun k d hkd => resolveDihedral_ok_inv _ atoms k true d
           (dihedralsStep_mem_resolve _ atoms true _ _ h4 k d hkd),
         fun k d hkd => resolveDihedral_ok_inv _ atoms k false d
           (dihedralsStep_mem_resolve _ atoms false _ _ h5 k d hkd)⟩

/-- The source torsion entry for (c3, c3, c3, c3): barrier 10, divider 2. -/
def srcC3Torsion : DihedralParams := ⟨("c3", "c3", "c3", "c3"), 10, 2⟩

/-- A store resolving every term of the 4-chain, torsions included. -/
def storeC3Full : ForceFieldParamsKeyed :=
  { emptyStore with
      mass := fun k => if k = "c3" then some ⟨"c3", 12⟩ else none,
      van_der_waals := fun k => if k = "c3" then some ⟨"c3", 1.908, 0.1094⟩ else none,
      dihedral := fun q => if q = ("c3", "c3", "c3", "c3") then some srcC3Torsion else none }

/-- The normalized torsion entry the 4-chain build stores. -/
def dC3 : DihedralParams :=
  { srcC3Torsion with
      barrier_height := srcC3Torsion.barrier_height / (srcC3Torsion.divider : ℚ),
      divider := 1 }

/-- The indexed result of the successful 4-chain build. -/
def rC3 : ForceFieldParamsIndexed :=
  { mass := [(0, ⟨"c3", 12⟩), (1, ⟨"c3", 12⟩), (2, ⟨"c3", 12⟩), (3, ⟨"c3", 12⟩)],
    van_der_waals := [(0, ⟨"c3", 1.908, 0.1094⟩), (1, ⟨"c3", 1.908, 0.1094⟩),
                      (2, ⟨"c3", 1.908, 0.1094⟩), (3, ⟨"c3", 1.908, 0.1094⟩)],
    bond_stretching := [],
    angle := [((0, 1, 2), angleDefault), ((1, 2, 3), angleDefault)],
    dihedral := [((0, 1, 2, 3), dC3)],
    improper := [] }

/-- Witness for C5: the single torsion entry of the 4-chain build matches
the merged store's source entry with the barrier divided and the divider
reset. -/
theorem torsion_barrier_normalized_witness :
    ∃ ts src, dihedralTypes atoms4 (0, 1, 2, 3) = .ok ts ∧
      (merge_params storeC3Full none).get_dihedral ts true = some src ∧
      dC3.barrier_height = src.barrier_height / (src.divider : ℚ) ∧ dC3.divider = 1 :=
  (torsion_barrier_normalized magX storeC3Full none atoms4 [] adj4 rC3 rfl).1
    (0, 1, 2, 3) dC3 (List.mem_singleton.mpr rfl)

/-! ## C8: hydrogen digit map and type resolution (src/add_hydrogens.rs) -/

/-- Amino acids (from `na_seq`); only the ones the concrete claims touch. -/
inductive AminoAcid where
  | Asp | Ser | Gly
  deriving DecidableEq, Repr

/-- `AminoAcidGeneral`: a standard amino acid or a protonation variant. -/
inductive AminoAcidGeneral where
  | Standard (aa : AminoAcid)
  | Hid
  deriving DecidableEq, Repr

/-- Atom-type-in-residue labels (from `na_seq`); the hydrogen constructor
carries the full label string, the rest are the sidechain heavy-atom
labels the resolver branches on. -/
inductive AtomTypeInRes where
  | H (name : String)
  | CA | CB | CD | CD1 | CD2 | CE | CE1 | CE2 | CE3 | CG | CG1 | CG2 | CH2 | CH3
  | CZ | CZ1 | CZ2 | CZ3
  | OD1 | OD2 | OG | OG1 | OG2 | OE1 | OE2
  | ND1 | ND2 | NH1 | NH2 | NE | NE1 | NE2
  | SE | SG
  | N | C | O
  deriving DecidableEq, Repr

/-- Per-type charge data from `bio_files::amber_params::ChargeParams`. -/
structure ChargeParams where
  type_in_res : AtomTypeInRes
  ff_type : String
  charge : ℚ
  deriving DecidableEq, Repr

/-- `ProtFfMap` (`HashMap<AminoAcidGeneral, Vec<ChargeParams>>`), embedded
as an association list to keep the builder's iteration explicit. -/
abbrev ProtFfMap := List (AminoAcidGeneral × List ChargeParams)

/-- The `DigitMap` (`HashMap<AminoAcid, HashMap<char, Vec<u8>>>`), embedded
as nested association lists. -/
abbrev DigitMap := List (AminoAcid × List (Char × List ℕ))

/-- `HashMap::get` on the embedded `ProtFfMap`. -/
def ffMapGet (m : ProtFfMap) (k : AminoAcidGeneral) : Option (List ChargeParams) :=
  (m.find? (fun p => decide (p.1 = k))).map Prod.snd

/-- `HashMap::get` on the embedded `DigitMap`. -/
def digitMapGet (dm : DigitMap) (aa : AminoAcid) : Option (List (Char × List ℕ)) :=
  (dm.find? (fun p => decide (p.1 = aa))).map Prod.snd

/-- `HashMap::get` on an embedded per-heavy-atom map. -/
def perHeavyGet (per : List (Char × List ℕ)) (c : Char) : Option (List ℕ) :=
  (per.find? (fun p => decide (p.1 = c))).map Prod.snd

/-- `validate_h_atom_type` from add_hydrogens.rs: true iff the candidate
label occurs verbatim in the reference table for the (standard) amino
acid; a missing table entry is an error. -/
def validate_h_atom_type (tir : AtomTypeInRes) (aa : AminoAcid) (ff_map : ProtFfMap) :
    Except BuildErr Bool :=
  match ffMapGet ff_map (.Standard aa) with
  | none => .error (.paramError "No parm19_data entry for amino acid")
  | some data => .ok (data.any (fun cp => decide (cp.type_in_res = tir)))

/-- `digits.parse::<u8>().unwrap()`: decimal value of a digit list. -/
def digitsVal (cs : List Char) : ℕ :=
  cs.foldl (fun a c => a * 10 + (c.toNat - '0'.toNat)) 0

/-- `per_heavy.entry(designator).or_default().push(num)`: append the number
to the designator's vector, creating the entry on first use. -/
def pushEntry (per : List (Char × List ℕ)) (c : Char) (n : ℕ) : List (Char × List ℕ) :=
  match per with
  | [] => [(c, [n])]
  | (c0, l) :: rest =>
    if c0 = c then (c0, l ++ [n]) :: rest else (c0, l) :: pushEntry rest c n

/-- The per-amino-acid scan of `make_h_digit_map`: for each hydrogen entry
"H" + designator + digits (at least 3 characters, alphabetic designator,
nonempty digit suffix), record the digit value under the designator. -/
def perHeavyOf (params : List ChargeParams) : List (Char × List ℕ) :=
  params.foldl (fun per cp =>
    match cp.type_in_res with
    | .H name =>
      if name.length < 3 then per
      else
        match name.data with
        | _ :: designator :: rest =>
          if designator.isAlpha then
            let digits := rest.filter Char.isDigit
            if digits.isEmpty then per
            else pushEntry per designator (digitsVal digits)
          else per
        | _ => per
    | _ => per) []

/-- Ascending insertion, for the `sort_unstable` of the digit vectors. -/
def insertSorted (n : ℕ) : List ℕ → List ℕ
  | [] => [n]
  | m :: ms => if n ≤ m then n :: m :: ms else m :: insertSorted n ms

/-- Ascending sort of a digit vector (`sort_unstable`). -/
def sortAsc (l : List ℕ) : List ℕ := l.foldr insertSorted []

/-- `make_h_digit_map` from add_hydrogens.rs: per standard amino acid,
group the hydrogen digit suffixes by designator letter, sort each group
ascending, and keep the amino acid only when any group is nonempty. -/
def make_h_digit_map (ff_map : ProtFfMap) : DigitMap :=
  ff_map.foldl (fun result entry =>
    let per_heavy := perHeavyOf entry.2
    match entry.1 with
    | .Standard aa =>
      if per_heavy.isEmpty then result
      else result ++ [(aa, per_heavy.map (fun p => (p.1, sortAsc p.2)))]
    | _ => result) []

/-- The designator letter of a parent type-in-residue (the fixed lookup
table at the head of `h_type_in_res_sidechain`). -/
def depthOf (parent_tir : AtomTypeInRes) : Except BuildErr Char :=
  match parent_tir with
  | .CB => .ok 'B'
  | .CD | .CD1 | .CD2 => .ok 'D'
  | .CE | .CE1 | .CE2 | .CE3 => .ok 'E'
  | .CG | .CG1 | .CG2 => .ok 'G'
  | .CH2 | .CH3 => .ok 'H'
  | .CZ | .CZ1 | .CZ2 | .CZ3 => .ok 'Z'
  | .OD1 | .OD2 => .ok 'D'
  | .OG | .OG1 | .OG2 => .ok 'G'
  | .OE1 | .OE2 => .ok 'E'
  | .ND1 | .ND2 => .ok 'D'
  | .NH1 | .NH2 => .ok 'H'
  | .NE | .NE1 | .NE2 => .ok 'E'
  | .SE => .ok 'E'
  | .SG => .ok 'G'
  | _ => .error (.paramError "Invalid parent type in res on H assignment")

/-- `h_type_in_res_sidechain` from add_hydrogens.rs: map the parent type to
its designator, unwrap the digit vector from the digit map (a panic when
absent), index it by the sibling ordinal (out of range is an error),
compose "H" + designator + digit, and validate the result against the
reference table. -/
def h_type_in_res_sidechain (h_num_this_parent : ℕ) (parent_tir : AtomTypeInRes)
    (aa : AminoAcid) (ff_map : ProtFfMap) (h_digit_map : DigitMap) :
    Except BuildErr AtomTypeInRes := do
  let depth ← depthOf parent_tir
  let digits ←
    match digitMapGet h_digit_map aa with
    | some per =>
      match perHeavyGet per depth with
      | some d => Except.ok d
      | none => Except.error (BuildErr.panic "called Option unwrap on a None value")
    | none => Except.error (BuildErr.panic "called Option unwrap on a None value")
  let digit ←
    match digits[h_num_this_parent]? with
    | some d => Except.ok d
    | none => Except.error (BuildErr.paramError "H Digit out of range")
  let result := AtomTypeInRes.H ("H" ++ String.singleton depth ++ toString digit)
  let valid ← validate_h_atom_type result aa ff_map
  if valid then .ok result
  else .error (.paramError "Invalid H type")

/-- The reference table rows for aspartate (from amino19.lib): hydrogen
entries H, HA, HB2 and HB3. -/
def aspTable : ProtFfMap :=
  [(.Standard .Asp,
    [⟨.N, "N", -0.5163⟩, ⟨.H "H", "H", 0.2936⟩, ⟨.CA, "CX", 0.0381⟩,
     ⟨.H "HA", "H1", 0.0880⟩, ⟨.CB, "2C", -0.0303⟩,
     ⟨.H "HB2", "HC", -0.0122⟩, ⟨.H "HB3", "HC", -0.0122⟩,
     ⟨.CG, "CO", 0.7994⟩, ⟨.OD1, "O2", -0.8014⟩, ⟨.OD2, "O2", -0.8014⟩,
     ⟨.C, "C", 0.5366⟩, ⟨.O, "O", -0.5819⟩])]

/-- C8: on a reference table whose hydrogen entries for Asp are H, HA, HB2
and HB3, the digit map binds designator B to the ascending sequence
[2, 3]; resolving a CB hydrogen with ordinal 0 yields HB2, ordinal 1
yields HB3, and ordinal 2 is an out-of-range error. -/
theorem h_digit_map_resolution :
    (digitMapGet (make_h_digit_map aspTable) .Asp).bind
      (fun per => perHeavyGet per 'B') = some [2, 3] ∧
    h_type_in_res_sidechain 0 .CB .Asp aspTable (make_h_digit_map aspTable) =
      .ok (.H "HB2") ∧
    h_type_in_res_sidechain 1 .CB .Asp aspTable (make_h_digit_map aspTable) =
      .ok (.H "HB3") ∧
    h_type_in_res_sidechain 2 .CB .Asp aspTable (make_h_digit_map aspTable) =
      .error (.paramError "H Digit out of range") :=
  ⟨rfl, rfl, rfl, rfl⟩

end Daedalus
